import Mathlib

/-!
Verification of the FlowCytometryTools core container layer
(`src/core/bases.py`, `src/core/containers.py`) against its
natural-language specification.

The Python classes are shallowly embedded as Lean structures and pure
functions.  Conventions used throughout:

* Python `None` is `Option.none`; a "may raise" computation returns
  `Except String _` whose error string names the Python exception.
* Python in-place mutation is explicit state passing: a method that
  mutates `self` returns the updated object (paired with its result, or
  with an `Option String` error when the source can raise after having
  already mutated part of the state).
* Python dicts preserving insertion order with last-write-wins update are
  association lists (`List (key, value)`) updated by `updAssoc`.
* The pluggable file readers (`read_data` / `read_meta`, which concrete
  subclasses route to the external FCS parser) are passed in as function
  parameters `reader`: they are external collaborators of the core.
* Type parameters: `κ` sample/collection keys, `δ` payload ("data"/"meta")
  values, `ρ`/`μ` result values of applied functions, `ρl`/`γl` row and
  column label types.
-/

deriving instance DecidableEq for Except

namespace FCT

/-- Python dict assignment `m[k] = v` on an insertion-ordered dict
represented as an association list: replace the value at an existing key
in place, otherwise append the new binding at the end. -/
def updAssoc {κ α : Type} [DecidableEq κ] (m : List (κ × α)) (k : κ) (v : α) :
    List (κ × α) :=
  if m.any (fun kv => kv.1 == k) then
    m.map (fun kv => if kv.1 == k then (k, v) else kv)
  else m ++ [(k, v)]

/-- Python dict lookup `m[k]` (first binding wins; with `updAssoc`-built
lists keys are unique, so this is the dict lookup). -/
def lookupAssoc {κ α : Type} [DecidableEq κ] (m : List (κ × α)) (k : κ) :
    Option α :=
  match m with
  | [] => none
  | kv :: rest => if kv.1 == k then some kv.2 else lookupAssoc rest k

/-- `BaseSample` (bases.py lines 82-261): a single sample with lazily
loaded `data` and `meta` attributes, each backed by an optional file path.
The per-collection position dict written by `_set_position` is tracked on
the owning ordered collection (field `sample_positions` of `OColl`). -/
structure Sample (κ δ : Type) where
  ID : κ
  datafile : Option String
  metafile : Option String
  data : Option δ
  meta : Option δ
  deriving DecidableEq, Repr

/-- `BaseSample._get_attr_from_file('data')` as called by `get_data`
(bases.py lines 172-200): return the cached value if set, else read the
value from `datafile` through `read_data` (the `reader` parameter, to
which the `**kwargs` of `get_data` — of opaque type `κw` — are forwarded),
else return `None`.  The function assigns to no attribute of `self`, so
the unchanged sample is returned; the final `Nat` counts how many times
`read_data` was invoked during this call. -/
def getDataS {κ δ κw : Type} (reader : String → κw → δ) (kwargs : κw)
    (s : Sample κ δ) : Option δ × Sample κ δ × Nat :=
  match s.data with
  | some v => (some v, s, 0)
  | none =>
    match s.datafile with
    | some p => (some (reader p kwargs), s, 1)
    | none => (none, s, 0)

/-- `BaseSample.get_data` with no keyword arguments, as used by
`FCMeasurement.transform` / `FCMeasurement.gate` (containers.py lines
184, 196): just the returned value of `getDataS`. -/
def getData {κ δ : Type} (reader : String → δ) (s : Sample κ δ) : Option δ :=
  (getDataS (fun p _ => reader p) () s).1

/-- Python `str.lower`, written over the character list so that concrete
instances reduce inside the kernel. -/
def pyLower (s : String) : String :=
  String.mk (s.data.map Char.toLower)

/-- `BaseSample.apply` (bases.py lines 227-261).  `func` receives either
the sample itself (`applyto='sample'`) or its data (`applyto='data'`), so
it takes a sum.  Returns the result (or the `ValueError` for an
unsupported `applyto` string), the possibly mutated sample (mutated only
when data had to be read and `setdata` is true), and whether `func` was
invoked. -/
def sampleApply {κ δ ρ : Type} (reader : String → δ)
    (func : Sample κ δ ⊕ δ → ρ) (applyto : String) (noneval : ρ)
    (setdata : Bool) (s : Sample κ δ) :
    Except String ρ × Sample κ δ × Bool :=
  let a := pyLower applyto
  if a = "data" then
    match s.data with
    | some d => (.ok (func (.inr d)), s, true)
    | none =>
      match s.datafile with
      | none => (.ok noneval, s, false)
      | some p =>
        let d := reader p
        let s' := if setdata then { s with data := some d } else s
        (.ok (func (.inr d)), s', true)
  else if a = "sample" then
    (.ok (func (.inl s)), s, true)
  else
    (.error "Encountered unsupported value for applyto paramter.", s, false)

/-- `BaseSampleCollection` (bases.py lines 266-327): a dict-like
collection of samples.  The underlying insertion-ordered dict attribute is
called `data` in the source; it is named `data` here as well. -/
structure Coll (κ δ : Type) where
  ID : String
  data : List (κ × Sample κ δ)
  deriving DecidableEq, Repr

/-- The four forms of the `criteria`/`applyto` pair accepted by
`BaseSampleCollection.filter` (bases.py lines 434-453): an explicit
per-key attribute mapping (`applyto` a Mapping, modelled as a total
function — a missing key would raise `KeyError`), or the strings
`'samples'`, `'keys'`, `'data'` selecting what the callable criterion is
evaluated against.  Any other `applyto` string raises `ValueError`
(not representable in this closed datatype). -/
inductive FilterCrit (κ δ α : Type) where
  | applytoMapping (m : κ → α) (fil : α → Bool)
  | samples (fil : Sample κ δ → Bool)
  | keys (fil : κ → Bool)
  | data (fil : Option δ → Bool)

/-- `BaseSampleCollection.filter` (bases.py lines 434-453): build the dict
of entries passing the criterion, default the new ID to
`<original>.filtered`, and return a freshly constructed collection.  The
source never assigns to `self`, so the receiver is unchanged. -/
def coll_filter {κ δ α : Type} (reader : String → δ) (c : Coll κ δ)
    (crit : FilterCrit κ δ α) (ID? : Option String) : Coll κ δ :=
  let samples :=
    match crit with
    | .applytoMapping m fil => c.data.filter (fun kv => fil (m kv.1))
    | .samples fil => c.data.filter (fun kv => fil kv.2)
    | .keys fil => c.data.filter (fun kv => fil kv.1)
    | .data fil => c.data.filter (fun kv => fil (getData reader kv.2))
  { ID := match ID? with
          | none => c.ID ++ ".filtered"
          | some i => i,
    data := samples }

/-- `BaseSampleCollection._clear_sample_attr` for the `data` attribute
(bases.py lines 402-404): routes `lambda x: setattr(x, 'data', None)`
through `apply(..., ids=ids, applyto='sample')`, whose effect is to set
`data = None` on every sample whose key is among `ids` (all keys when
`ids` is `None`). -/
def clearSampleAttrData {κ δ : Type} [DecidableEq κ] (c : Coll κ δ)
    (ids? : Option (List κ)) : Coll κ δ :=
  let ids := match ids? with
             | none => c.data.map Prod.fst
             | some l => l
  { c with data := c.data.map (fun kv =>
      if ids.contains kv.1 then (kv.1, { kv.2 with data := none }) else kv) }

/-- `_clear_sample_attr` for the `meta` attribute (bases.py lines 402-404). -/
def clearSampleAttrMeta {κ δ : Type} [DecidableEq κ] (c : Coll κ δ)
    (ids? : Option (List κ)) : Coll κ δ :=
  let ids := match ids? with
             | none => c.data.map Prod.fst
             | some l => l
  { c with data := c.data.map (fun kv =>
      if ids.contains kv.1 then (kv.1, { kv.2 with meta := none }) else kv) }

/-- `BaseSampleCollection.clear_sample_data` (bases.py lines 406-407):
note the body passes `ids=None` literally, not the caller's `ids`. -/
def clear_sample_data {κ δ : Type} [DecidableEq κ] (c : Coll κ δ)
    (ids : Option (List κ)) : Coll κ δ :=
  clearSampleAttrData c none

/-- `BaseSampleCollection.clear_sample_meta` (bases.py lines 409-410):
likewise passes `ids=None` literally. -/
def clear_sample_meta {κ δ : Type} [DecidableEq κ] (c : Coll κ δ)
    (ids : Option (List κ)) : Coll κ δ :=
  clearSampleAttrMeta c none

/-- `BaseOrderedCollection` (bases.py lines 483-531): a sample collection
additionally carrying a grid shape, row/column labels and a position dict
`_positions` (field `positions` here).  `sample_positions` tracks, per
key, the entry `self[k]._set_position(self.ID, pos)` writes into the
member sample's own `position` dict under this collection's ID. -/
structure OColl (κ ρl γl δ : Type) where
  ID : String
  data : List (κ × Sample κ δ)
  shape : Nat × Nat
  row_labels : List ρl
  col_labels : List γl
  positions : List (κ × (ρl × γl))
  sample_positions : List (κ × (ρl × γl))
  deriving DecidableEq, Repr

/-- `BaseOrderedCollection._is_valid_position` (bases.py lines 540-547):
both the row label and the column label must occur among the
collection's labels. -/
def is_valid_position {κ ρl γl δ : Type} [DecidableEq ρl] [DecidableEq γl]
    (st : OColl κ ρl γl δ) (position : ρl × γl) : Bool :=
  st.row_labels.contains position.1 && st.col_labels.contains position.2

/-- The dict `temp = self._positions.copy(); temp.update(positions)`
built by `set_positions` (bases.py lines 593-594): the union of the
existing and the proposed positions, proposals winning on shared keys. -/
def posUnion {κ ρl γl : Type} [DecidableEq κ]
    (old : List (κ × (ρl × γl))) (batch : List (κ × (ρl × γl))) :
    List (κ × (ρl × γl)) :=
  batch.foldl (fun m kp => updAssoc m kp.1 kp.2) old

/-- The commit loop of `set_positions` (bases.py lines 599-604): for each
proposed `(k, pos)` in iteration order, raise `ValueError` if the position
is invalid, otherwise assign `self._positions[k] = pos`, then mirror the
position onto the member sample via `self[k]` (raising `KeyError` when
`k` is not a member — note `_positions[k]` has already been written at
that point).  An exception aborts the loop but keeps every assignment
made so far, which is why the (possibly partially updated) state is
returned alongside the optional error. -/
def commitLoop {κ ρl γl δ : Type} [DecidableEq κ] [DecidableEq ρl]
    [DecidableEq γl] (st : OColl κ ρl γl δ) :
    List (κ × (ρl × γl)) → Option String × OColl κ ρl γl δ
  | [] => (none, st)
  | (k, pos) :: rest =>
    if is_valid_position st pos then
      let st' := { st with positions := updAssoc st.positions k pos }
      match lookupAssoc st.data k with
      | none => (some "KeyError", st')
      | some _ =>
        commitLoop
          { st' with sample_positions := updAssoc st.sample_positions k pos }
          rest
    else
      (some "Position is not supported for this collection", st)

/-- Resolution of the `positions` argument of `set_positions` (bases.py
lines 583-591): an explicit proposal dict is used as is; otherwise the
(already resolved, cf. `_get_ID2position_parser`) parser is applied to the
given ids, defaulting to all member keys. -/
def resolvePositions {κ ρl γl δ : Type} (st : OColl κ ρl γl δ)
    (positions? : Option (List (κ × (ρl × γl)))) (parser : κ → ρl × γl)
    (ids? : Option (List κ)) : List (κ × (ρl × γl)) :=
  match positions? with
  | some ps => ps
  | none =>
    (match ids? with
     | none => st.data.map Prod.fst
     | some l => l).map (fun i => (i, parser i))

/-- `BaseOrderedCollection.set_positions` (bases.py lines 567-604):
resolve the proposal batch, reject the whole batch when two keys of the
union of existing and proposed positions map to the same cell (the
`len(temp.values()) == len(set(temp.values()))` check, written here with
`List.dedup` for `set`), then run the commit loop.  The first component
is the raised exception message, if any; the second is the state of the
collection when the call returns or raises. -/
def set_positions {κ ρl γl δ : Type} [DecidableEq κ] [DecidableEq ρl]
    [DecidableEq γl] (st : OColl κ ρl γl δ)
    (positions? : Option (List (κ × (ρl × γl)))) (parser : κ → ρl × γl)
    (ids? : Option (List κ)) : Option String × OColl κ ρl γl δ :=
  let positions := resolvePositions st positions? parser ids?
  let temp := posUnion st.positions positions
  if (temp.map Prod.snd).dedup.length = (temp.map Prod.snd).length then
    commitLoop st positions
  else
    (some "A position can only be occupied by a single sample", st)

/-- Writing one result into the reshaped table: `df[j][i] = res`
(bases.py line 619) with `i`, `j` the row and column labels of the
sample's position. -/
def setGridCell {μ : Type} (g : List (List μ)) (ri ci : Nat) (v : μ) :
    List (List μ) :=
  g.set ri ((g.getD ri []).set ci v)

/-- Is column `j` kept by `dropna(axis=1, how='all')`: some already-kept
row has a non-null entry at `j`. -/
def dropnaKeepCol {μ : Type} (isna : μ → Bool) (rows : List (List μ))
    (j : Nat) : Bool :=
  rows.any (fun r => ((r.get? j).map (fun x => !(isna x))).getD false)

/-- `df.dropna(axis=0, how='all').dropna(axis=1, how='all')` (bases.py
line 621): first drop the rows whose cells are all null, then drop the
columns whose remaining cells are all null.  `isna` models the pandas
null test (`noneval` is `nan` in the source, so untouched cells are
null). -/
def dropnaGrid {μ : Type} (isna : μ → Bool) (g : List (List μ)) :
    List (List μ) :=
  let rows := g.filter (fun r => !(r.all isna))
  let ncols := (g.headD []).length
  rows.map (fun r =>
    ((r.enum.filter (fun ix => dropnaKeepCol isna rows ix.1)).map Prod.snd))

/-- `BaseOrderedCollection._dict2DF` (bases.py lines 615-623): start from
a `row_labels × col_labels` table filled with `noneval`, write each
result of the dict `d` into the cell of its sample's position (`KeyError`
when a key has no position or the position's labels are unknown), and
drop all-null rows/columns when `dropna` is set. -/
def dict2DF {κ ρl γl δ μ : Type} [DecidableEq κ] [DecidableEq ρl]
    [DecidableEq γl] (st : OColl κ ρl γl δ) (isna : μ → Bool)
    (d : List (κ × μ)) (noneval : μ) (dropna : Bool) :
    Except String (List (List μ)) :=
  let g0 : List (List μ) :=
    st.row_labels.map (fun _ => st.col_labels.map (fun _ => noneval))
  match
    d.foldlM (fun g kv =>
      (match lookupAssoc st.positions kv.1 with
      | none => .error "KeyError"
      | some (i, j) =>
        if st.row_labels.contains i && st.col_labels.contains j then
          .ok (setGridCell g (st.row_labels.findIdx (fun x => x == i))
                 (st.col_labels.findIdx (fun x => x == j)) kv.2)
        else
          .error "KeyError" : Except String (List (List μ)))) g0
  with
  | .error e => .error e
  | .ok g => if dropna then .ok (dropnaGrid isna g) else .ok g

/-- One step of `BaseSampleCollection.apply` (bases.py line 399): look up
`self[i]` (`KeyError` when absent) and delegate to `Sample.apply`,
threading the sample mutation that `setdata` may perform back into the
member dict. -/
def coll_apply_go {κ δ ρ : Type} [DecidableEq κ] (reader : String → δ)
    (func : Sample κ δ ⊕ δ → ρ) (applyto : String) (noneval : ρ)
    (setdata : Bool) :
    List κ → List (κ × Sample κ δ) →
    Except String (List (κ × ρ) × List (κ × Sample κ δ))
  | [], ms => .ok ([], ms)
  | i :: rest, ms =>
    match lookupAssoc ms i with
    | none => .error "KeyError"
    | some s =>
      match sampleApply reader func applyto noneval setdata s with
      | (.error e, _, _) => .error e
      | (.ok v, s', _) =>
        match coll_apply_go reader func applyto noneval setdata rest
            (updAssoc ms i s') with
        | .error e => .error e
        | .ok (d, ms') => .ok ((i, v) :: d, ms')

/-- `BaseSampleCollection.apply` (bases.py lines 372-400): apply the
function to each sample selected by `ids` (all keys when `None`), return
the result dict together with the member dict (samples may have been
mutated through `setdata`). -/
def coll_apply {κ δ ρ : Type} [DecidableEq κ] (reader : String → δ)
    (func : Sample κ δ ⊕ δ → ρ) (ids? : Option (List κ)) (applyto : String)
    (noneval : ρ) (setdata : Bool) (ms : List (κ × Sample κ δ)) :
    Except String (List (κ × ρ) × List (κ × Sample κ δ)) :=
  let ids := match ids? with
             | none => ms.map Prod.fst
             | some l => l
  coll_apply_go reader func applyto noneval setdata ids ms

/-- The two output formats of `BaseOrderedCollection.apply`. -/
inductive ApplyOut (κ μ : Type) where
  | dict (d : List (κ × μ))
  | table (t : List (List μ))
  deriving DecidableEq, Repr

/-- `BaseOrderedCollection.apply` (bases.py lines 634-670): run the
inherited per-sample apply, then return the result dict as is or reshaped
through `_dict2DF`.  Note line 666: `self._dict2DF(result, noneval)` — the
`dropna` argument of `apply` is accepted but not forwarded, so
`_dict2DF` runs with its default `dropna=False`. -/
def oc_apply {κ ρl γl δ μ : Type} [DecidableEq κ] [DecidableEq ρl]
    [DecidableEq γl] (reader : String → δ) (isna : μ → Bool)
    (func : Sample κ δ ⊕ δ → μ) (ids? : Option (List κ)) (applyto : String)
    (output_format : String) (noneval : μ) (setdata : Bool) (dropna : Bool)
    (st : OColl κ ρl γl δ) :
    Except String (ApplyOut κ μ × OColl κ ρl γl δ) :=
  match coll_apply reader func ids? applyto noneval setdata st.data with
  | .error e => .error e
  | .ok (result, ms') =>
    if output_format = "dict" then
      .ok (.dict result, { st with data := ms' })
    else if output_format = "DataFrame" then
      match dict2DF st isna result noneval false with
      | .error e => .error e
      | .ok t => .ok (.table t, { st with data := ms' })
    else
      .error "The output_format must be either dict or DataFrame."

/-- `FCMeasurement.transform` (containers.py lines 177-189): read the
current data, run it through the external `transform_frame` (the `tf`
parameter, consuming whatever `get_data` returned), and return a copy of
the sample with the new data assigned via `set_data`. -/
def measTransform {κ δ : Type} (reader : String → δ) (tf : Option δ → δ)
    (m : Sample κ δ) : Sample κ δ :=
  { m with data := some (tf (getData reader m)) }

/-- `FCMeasurement.gate` (containers.py lines 191-200): apply the gate
callable (the `g` parameter) to the current data and return a copy of the
sample with the gated data assigned. -/
def measGate {κ δ : Type} (reader : String → δ) (g : Option δ → δ)
    (m : Sample κ δ) : Sample κ δ :=
  { m with data := some (g (getData reader m)) }

/-- `FCCollection.transform` (containers.py lines 213-229): deep-copy the
collection, replace every member of the copy by its transformed version,
then — before returning the copy — reassign `self.ID` to the given ID or
to `<old>.transformed`.  The first component is the returned new
collection (which keeps the pre-rename ID, since the copy was taken
first); the second is the receiver as it is left by the call. -/
def coll_transform {κ δ : Type} (reader : String → δ) (tf : Option δ → δ)
    (ID? : Option String) (c : Coll κ δ) : Coll κ δ × Coll κ δ :=
  let new : Coll κ δ :=
    { ID := c.ID,
      data := c.data.map (fun kv => (kv.1, measTransform reader tf kv.2)) }
  let newID := match ID? with
               | none => c.ID ++ ".transformed"
               | some i => i
  (new, { c with ID := newID })

/-- `FCCollection.gate` (containers.py lines 231-244): same shape as
`coll_transform`, with `<old>.gated` as the default for the receiver's
reassigned ID. -/
def coll_gate {κ δ : Type} (reader : String → δ) (g : Option δ → δ)
    (ID? : Option String) (c : Coll κ δ) : Coll κ δ × Coll κ δ :=
  let new : Coll κ δ :=
    { ID := c.ID,
      data := c.data.map (fun kv => (kv.1, measGate reader g kv.2)) }
  let newID := match ID? with
               | none => c.ID ++ ".gated"
               | some i => i
  (new, { c with ID := newID })

/-- A cell of the `applymap` result inside `BasePlate.apply`: Python
dynamically stores there either `noneval` / a value returned by the
applied function, or the list `[noneval]*nout`. -/
inductive CellV (μ : Type) where
  | val (x : μ)
  | list (l : List μ)
  deriving DecidableEq, Repr

/-- `BasePlate` (bases.py lines 772-820): a dense grid-first container.
`wells` is the `row_labels × col_labels` DataFrame of pre-allocated
samples, `extracted` the accumulated output-name → table registry.  Cells
of `extracted` tables are Python objects that are either a single value
or a list, cf. `CellV`. -/
structure Plate (δ μ : Type) where
  ID : String
  row_labels : List String
  col_labels : List Int
  wells : List (List (Sample String δ))
  extracted : List (String × List (List (CellV μ)))

/-- `BasePlate._make_wells` (bases.py lines 812-820): one fresh sample
per cell, with ID `'%s%s' % (rlabel, clabel)` and no backing files. -/
def make_wells {δ : Type} (row_labels : List String) (col_labels : List Int) :
    List (List (Sample String δ)) :=
  row_labels.map (fun r => col_labels.map (fun c =>
    { ID := r ++ toString c, datafile := none, metafile := none,
      data := none, meta := none }))

/-- `BasePlate.well_IDS` (bases.py lines 869-871): the IDs of all wells
in row-major order. -/
def well_IDS {δ μ : Type} (pl : Plate δ μ) : List String :=
  (pl.wells.flatten).map (fun w => w.ID)

/-- A positional argument of a Python call to `BaseSample.apply`, which
is dynamically typed: the function, the `applyto` string, the `noneval`
object, an integer, or a boolean. -/
inductive PyArg (δ μ : Type) where
  | pfunc (f : Sample String δ ⊕ δ → Option μ)
  | pstr (s : String)
  | pval (x : μ)
  | pnat (n : Nat)
  | pbool (b : Bool)

/-- The Python call protocol for `BaseSample.apply` (bases.py line 227):
the method declares exactly four parameters after `self` —
`(func, applyto='data', noneval=nan, setdata=False)` — so a call whose
positional argument list does not fit them raises `TypeError` before the
method body runs.  The applied function returns `Option μ`, with `none`
playing Python's `None`; `nan` is an ordinary value, not `None`, so the
`noneval` argument enters the body as `some nv`.  (Call shapes that rely
on the default arguments are collapsed into the `TypeError` catch-all:
no call site modelled here uses them.) -/
def sampleApplyCall {δ μ : Type} (reader : String → δ)
    (w : Sample String δ) :
    List (PyArg δ μ) → Except String (Option μ × Sample String δ)
  | [.pfunc f, .pstr a, .pval nv, .pbool sd] =>
    match sampleApply reader f a (some nv) sd w with
    | (.error e, _, _) => .error e
    | (.ok v, w', _) => .ok (v, w')
  | _ => .error "TypeError: apply() takes at most 5 arguments (6 given)"

/-- `applied_func` inside `BasePlate.apply` (bases.py lines 910-923):
wells outside `well_ids` get `noneval` (or `[noneval]*nout`); for the
others the source calls
`well.apply(func, applyto, noneval, nout, setdata)` — five positional
arguments — and degrades a `None` result to `noneval`(s). -/
def plateAppliedFunc {δ μ : Type} (reader : String → δ)
    (func : Sample String δ ⊕ δ → Option μ) (applyto : String)
    (noneval : μ) (setdata : Bool) (well_ids : List String) (nout : Nat)
    (well : Sample String δ) :
    Except String (CellV μ × Sample String δ) :=
  if !(well_ids.contains well.ID) then
    .ok ((if nout = 1 then .val noneval
          else .list (List.replicate nout noneval)), well)
  else
    match sampleApplyCall reader well
        [.pfunc func, .pstr applyto, .pval noneval, .pnat nout,
         .pbool setdata] with
    | .error e => .error e
    | .ok (result, well') =>
      match result with
      | some r => .ok (.val r, well')
      | none =>
        .ok ((if nout = 1 then .val noneval
              else .list (List.replicate nout noneval)), well')

/-- `self.wells.applymap(applied_func)` over one row: pandas applies the
function cell by cell; an exception raised in any cell propagates.  The
(possibly `setdata`-mutated) wells are threaded through. -/
def applymapRow {δ μ : Type}
    (f : Sample String δ → Except String (CellV μ × Sample String δ)) :
    List (Sample String δ) →
    Except String (List (CellV μ) × List (Sample String δ))
  | [] => .ok ([], [])
  | w :: ws =>
    match f w with
    | .error e => .error e
    | .ok (c, w') =>
      match applymapRow f ws with
      | .error e => .error e
      | .ok (cs, ws') => .ok (c :: cs, w' :: ws')

/-- `self.wells.applymap(applied_func)` over the whole grid (bases.py
line 926). -/
def applymapWells {δ μ : Type}
    (f : Sample String δ → Except String (CellV μ × Sample String δ)) :
    List (List (Sample String δ)) →
    Except String (List (List (CellV μ)) × List (List (Sample String δ)))
  | [] => .ok ([], [])
  | row :: rows =>
    match applymapRow f row with
    | .error e => .error e
    | .ok (cs, row') =>
      match applymapWells f rows with
      | .error e => .error e
      | .ok (css, rows') => .ok (cs :: css, row' :: rows')

/-- The `x[i]` subscript of `result.applymap(lambda x: x[i])` (bases.py
line 933) on a dynamically typed cell: lists are indexed directly
(`IndexError` when out of range); a plain value is indexed through the
object's own `__getitem__`, supplied as `getItem`. -/
def cellIndex {μ : Type} (getItem : μ → Nat → Except String μ)
    (c : CellV μ) (i : Nat) : Except String (CellV μ) :=
  match c with
  | .list l =>
    match l.get? i with
    | some x => .ok (.val x)
    | none => .error "IndexError"
  | .val x =>
    match getItem x i with
    | .ok y => .ok (.val y)
    | .error e => .error e

/-- The multi-output split of `BasePlate.apply` (bases.py lines 931-933):
one table per output name, the `i`-th obtained by indexing every cell
with `i`. -/
def splitOutputs {μ : Type} (getItem : μ → Nat → Except String μ)
    (outputs : List String) (result : List (List (CellV μ))) :
    Except String (List (String × List (List (CellV μ)))) :=
  outputs.enum.mapM (fun io =>
    (result.mapM (fun (row : List (CellV μ)) =>
      row.mapM (fun c => cellIndex getItem c io.1))).map
      (fun g => (io.2, g)))

/-- `BasePlate.apply` (bases.py lines 886-934): select the well ids
(default: all), applymap `applied_func` over the dense well grid, then
store one table per output name into `extracted`
(`self.extracted.update(out)`, so a later call with the same output name
overwrites the earlier table). -/
def plate_apply {δ μ : Type} (reader : String → δ)
    (getItem : μ → Nat → Except String μ)
    (func : Sample String δ ⊕ δ → Option μ) (outputs : List String)
    (applyto : String) (noneval : μ) (well_ids? : Option (List String))
    (setdata : Bool) (pl : Plate δ μ) : Except String (Plate δ μ) :=
  let well_ids := match well_ids? with
                  | none => well_IDS pl
                  | some l => l
  let nout := outputs.length
  match applymapWells
      (plateAppliedFunc reader func applyto noneval setdata well_ids nout)
      pl.wells with
  | .error e => .error e
  | .ok (result, wells') =>
    match
      (if nout = 1 then .ok [(outputs.headD "", result)]
       else splitOutputs getItem outputs result :
        Except String (List (String × List (List (CellV μ))))) with
    | .error e => .error e
    | .ok out =>
      .ok { pl with
            wells := wells',
            extracted := out.foldl (fun e kv => updAssoc e kv.1 kv.2)
              pl.extracted }

/-- A Python sample/collection key as produced by the ID-assignment
strategies: the `'name'` strategy yields strings, `'number'` yields
integers. -/
inductive PyId where
  | str (s : String)
  | int (n : Int)
  deriving DecidableEq, Repr

/-- The recognized values of the `parser` argument of
`_assign_IDS_to_datafiles` (bases.py lines 20-38): an explicit mapping, a
callable, or one of the strategy tags `'name'`, `'number'`, `'read'`.
An unsupported tag raises `ValueError`; that branch is outside this
closed datatype. -/
inductive IdStrategy where
  | mapping (m : List (String × PyId))
  | callable (f : String → PyId)
  | name
  | number
  | read

/-- Splitting a character list at a separator character; the accumulator
holds the current token reversed. -/
def splitCharAux (sep : Char) : List Char → List Char → List (List Char)
  | [], acc => [acc.reverse]
  | c :: cs, acc =>
    if c = sep then acc.reverse :: splitCharAux sep cs []
    else splitCharAux sep cs (c :: acc)

/-- Python `s.split(sep)` for a one-character separator, written over the
character list so that concrete instances reduce inside the kernel.  Like
Python's `split` with an explicit separator, it never returns an empty
list. -/
def pySplit (sep : Char) (s : String) : List String :=
  (splitCharAux sep s.data []).map String.mk

/-- The numeric value of a non-empty all-digit character list. -/
def digitsToNat (l : List Char) : Option Nat :=
  if l.isEmpty then none
  else if l.all (fun c => c.isDigit) then
    some (l.foldl (fun n c => n * 10 + (c.toNat - '0'.toNat)) 0)
  else none

/-- Python `int(s)` on a decimal literal with an optional sign
(`ValueError`, i.e. `none`, otherwise). -/
def pyToInt (s : String) : Option Int :=
  match s.data with
  | '-' :: rest => (digitsToNat rest).map (fun n => -(n : Int))
  | '+' :: rest => (digitsToNat rest).map (fun n => (n : Int))
  | l => (digitsToNat l).map (fun n => (n : Int))

/-- The per-file parse function `fparse` of `_assign_IDS_to_datafiles`
(bases.py lines 25-36): `'name'` is
`x.split('_')[-1].split('.')[0]`; `'number'` is `int(x.split('.')[-2])`
(`IndexError` when there is no second-to-last token, `ValueError` when it
is not an integer); `'read'` opens the file and extracts the embedded
identity, modelled by the external `idFromData`. -/
def fparse (idFromData : String → PyId) (parser : IdStrategy) (x : String) :
    Except String PyId :=
  match parser with
  | .mapping m =>
    match lookupAssoc m x with
    | some v => .ok v
    | none => .error "KeyError"
  | .callable f => .ok (f x)
  | .name =>
    .ok (.str ((pySplit '.' ((pySplit '_' x).getLastD "")).headD ""))
  | .number =>
    let parts := pySplit '.' x
    if 2 ≤ parts.length then
      match pyToInt (parts.getD (parts.length - 2) "") with
      | some n => .ok (.int n)
      | none => .error "ValueError"
    else .error "IndexError"
  | .read => .ok (idFromData x)

/-- `_assign_IDS_to_datafiles` (bases.py lines 20-38): the dict
`{fparse(f): f for f in datafiles}` — last write wins on ID collisions. -/
def assignIDs (idFromData : String → PyId) (datafiles : List String)
    (parser : IdStrategy) : Except String (List (PyId × String)) :=
  datafiles.foldlM (fun acc dfile =>
    (fparse idFromData parser dfile).map (fun i => updAssoc acc i dfile)) []

/-- One fresh sample per assigned ID, as built by the `from_files` loop
(bases.py lines 293-295 and 522-524). -/
def samplesOfAssignment {δ : Type} (d : List (PyId × String)) :
    List (PyId × Sample PyId δ) :=
  d.map (fun sf => (sf.1, { ID := sf.1, datafile := some sf.2,
                            metafile := none, data := none, meta := none }))

/-- The member dict produced by `BaseSampleCollection.from_files`
(bases.py lines 287-296) before the collection constructor wraps it. -/
def flatFromFilesMembers {δ : Type} (idFromData : String → PyId)
    (datafiles : List String) (parser : IdStrategy) :
    Except String (List (PyId × Sample PyId δ)) :=
  (assignIDs idFromData datafiles parser).map samplesOfAssignment

/-- `BaseSampleCollection.from_path` (bases.py lines 298-302): list the
files (the external `get_files`, whose result is the `datafiles`
parameter here) and delegate to `from_files`, forwarding the caller's
`parser`. -/
def flatFromPathMembers {δ : Type} (idFromData : String → PyId)
    (datafiles : List String) (parser : IdStrategy) :
    Except String (List (PyId × Sample PyId δ)) :=
  flatFromFilesMembers idFromData datafiles parser

/-- The member dict produced by `BaseOrderedCollection.from_files`
(bases.py lines 516-525) before the ordered-collection constructor
(shape, labels, `set_positions`) consumes it unchanged. -/
def ordFromFilesMembers {δ : Type} (idFromData : String → PyId)
    (datafiles : List String) (file_strategy : IdStrategy) :
    Except String (List (PyId × Sample PyId δ)) :=
  (assignIDs idFromData datafiles file_strategy).map samplesOfAssignment

/-- `BaseOrderedCollection.from_path` (bases.py lines 527-531): note the
body calls `cls.from_files(ID, datafiles, file_parser='name', **kwargs)`,
passing the literal `'name'` instead of the caller's `file_parser`. -/
def ordFromPathMembers {δ : Type} (idFromData : String → PyId)
    (datafiles : List String) (file_strategy : IdStrategy) :
    Except String (List (PyId × Sample PyId δ)) :=
  ordFromFilesMembers idFromData datafiles IdStrategy.name

/-- A sample with the given string ID and nothing else set. -/
def bareSample (i : String) : Sample String Nat :=
  { ID := i, datafile := none, metafile := none, data := none, meta := none }

/-- A 2×2 ordered collection holding two position-less members `x`, `y`;
row labels `A`, `B`, column labels `1`, `2`. -/
def oc0 : OColl String String Int Nat :=
  { ID := "plate", data := [("x", bareSample "x"), ("y", bareSample "y")],
    shape := (2, 2), row_labels := ["A", "B"], col_labels := [1, 2],
    positions := [], sample_positions := [] }

/-- A proposal batch whose first entry is a valid position and whose
second proposes the out-of-grid cell `("Z", 9)`. -/
def oc0badBatch : List (String × (String × Int)) :=
  [("x", ("A", 1)), ("y", ("Z", 9))]

/-- A proposal batch in which two IDs collide on the cell `("A", 1)`. -/
def oc0collBatch : List (String × (String × Int)) :=
  [("x", ("A", 1)), ("y", ("A", 1))]

/-- A fully valid proposal batch for `oc0`. -/
def oc0goodBatch : List (String × (String × Int)) :=
  [("x", ("A", 1)), ("y", ("B", 2))]

/-- An ID→position parser used where `set_positions` is exercised with an
explicit proposal dict (the parser is then never consulted). -/
def trivParser : String → String × Int := fun _ => ("A", 1)

/-- The sample read by the C3 scenario: `data` unset, a backing file
present. -/
def c3sample : Sample String Nat :=
  { ID := "s1", datafile := some "f.fcs", metafile := none, data := none,
    meta := none }

/-- A deterministic backing reader for the C3 scenario; its second
argument stands for the forwarded keyword arguments (`persist=True` is
modelled as `true`). -/
def c3reader : String → Bool → Nat := fun _ _ => 7

/-- A 2×2 ordered collection with a single member `A1` placed at
`("A", 1)`, data already cached. -/
def c4oc : OColl String String Int (Option Nat) :=
  { ID := "p",
    data := [("A1", { ID := "A1", datafile := none, metafile := none,
                      data := some (some 5), meta := none })],
    shape := (2, 2), row_labels := ["A", "B"], col_labels := [1, 2],
    positions := [("A1", ("A", 1))],
    sample_positions := [("A1", ("A", 1))] }

/-- A 1×1 dense plate (row `A`, column `1`) with empty `extracted`. -/
def c2plate : Plate Nat (List Nat) :=
  { ID := "P", row_labels := ["A"], col_labels := [1],
    wells := make_wells ["A"] [1], extracted := [] }

/-- The applied function of the C2 scenario: returns a 2-tuple (as a
list) for every well. -/
def c2func : Sample String Nat ⊕ Nat → Option (List Nat) :=
  fun _ => some [1, 2]

/-- The `__getitem__` of the C2 scenario's function results (never
reached: the call raises `TypeError` first). -/
def c2getItem : List Nat → Nat → Except String (List Nat) :=
  fun l i => match l.get? i with
             | some x => .ok [x]
             | none => .error "IndexError"

theorem nodup_fst_updAssoc {κ α : Type} [DecidableEq κ]
    {m : List (κ × α)} {k : κ} {v : α} (h : (m.map Prod.fst).Nodup) :
    ((updAssoc m k v).map Prod.fst).Nodup := by
  unfold updAssoc
  split
  · have heq : (m.map (fun kv => if kv.1 == k then (k, v) else kv)).map
        Prod.fst = m.map Prod.fst := by
      rw [List.map_map]
      apply List.map_congr_left
      intro a _
      by_cases hk : a.1 = k
      · simp [hk]
      · simp [hk]
    rw [heq]
    exact h
  · rename_i hany
    rw [List.map_append]
    refine List.nodup_append.mpr ⟨h, List.nodup_singleton k, ?_⟩
    intro a ham hak
    rw [Bool.not_eq_true, List.any_eq_false] at hany
    obtain ⟨kv, hkv, rfl⟩ := List.mem_map.1 ham
    have := hany kv hkv
    simp only [List.map_cons, List.map_nil, List.mem_singleton] at hak
    exact this (by simpa using hak)

theorem mem_map_snd_updAssoc {κ α : Type} [DecidableEq κ]
    {m : List (κ × α)} {k : κ} {v : α} {p : α}
    (h : p ∈ (updAssoc m k v).map Prod.snd) :
    p ∈ m.map Prod.snd ∨ p = v := by
  unfold updAssoc at h
  split at h
  · rw [List.map_map] at h
    obtain ⟨a, ha, hpe⟩ := List.mem_map.1 h
    by_cases hk : a.1 = k
    · right
      simp only [Function.comp, hk, beq_self_eq_true, if_true] at hpe
      exact hpe.symm
    · left
      simp only [Function.comp, hk, beq_iff_eq, if_false, if_neg hk] at hpe
      exact hpe ▸ List.mem_map_of_mem Prod.snd ha
  · rw [List.map_append] at h
    rcases List.mem_append.1 h with h' | h'
    · left; exact h'
    · right
      simpa using h'

theorem posUnion_nil {κ ρl γl : Type} [DecidableEq κ]
    (old : List (κ × (ρl × γl))) : posUnion old [] = old := rfl

theorem posUnion_cons {κ ρl γl : Type} [DecidableEq κ]
    (old : List (κ × (ρl × γl))) (kp : κ × (ρl × γl))
    (rest : List (κ × (ρl × γl))) :
    posUnion old (kp :: rest) = posUnion (updAssoc old kp.1 kp.2) rest := rfl

theorem mem_map_snd_posUnion {κ ρl γl : Type} [DecidableEq κ]
    {old batch : List (κ × (ρl × γl))} {p : ρl × γl}
    (h : p ∈ (posUnion old batch).map Prod.snd) :
    p ∈ old.map Prod.snd ∨ p ∈ batch.map Prod.snd := by
  induction batch generalizing old with
  | nil => left; exact h
  | cons kp rest ih =>
    rw [posUnion_cons] at h
    rcases ih h with h' | h'
    · rcases mem_map_snd_updAssoc h' with h'' | h''
      · left; exact h''
      · right; simp [h'']
    · right
      simp only [List.map_cons, List.mem_cons]
      exact Or.inr h'

theorem nodup_fst_posUnion {κ ρl γl : Type} [DecidableEq κ]
    {old batch : List (κ × (ρl × γl))} (h : (old.map Prod.fst).Nodup) :
    ((posUnion old batch).map Prod.fst).Nodup := by
  induction batch generalizing old with
  | nil => exact h
  | cons kp rest ih =>
    rw [posUnion_cons]
    exact ih (nodup_fst_updAssoc h)

theorem is_valid_position_congr {κ ρl γl δ : Type} [DecidableEq ρl]
    [DecidableEq γl] {st₁ st₂ : OColl κ ρl γl δ} (p : ρl × γl)
    (hr : st₁.row_labels = st₂.row_labels)
    (hc : st₁.col_labels = st₂.col_labels) :
    is_valid_position st₁ p = is_valid_position st₂ p := by
  unfold is_valid_position
  rw [hr, hc]

theorem commitLoop_ok_spec {κ ρl γl δ : Type} [DecidableEq κ]
    [DecidableEq ρl] [DecidableEq γl] {st st' : OColl κ ρl γl δ}
    {batch : List (κ × (ρl × γl))} (h : commitLoop st batch = (none, st')) :
    st'.positions = posUnion st.positions batch ∧
    st'.row_labels = st.row_labels ∧ st'.col_labels = st.col_labels ∧
    ∀ kp ∈ batch, is_valid_position st kp.2 = true := by
  induction batch generalizing st with
  | nil =>
    obtain rfl : st = st' := congrArg Prod.snd h
    exact ⟨rfl, rfl, rfl, by simp⟩
  | cons kp rest ih =>
    obtain ⟨k, pos⟩ := kp
    rw [commitLoop] at h
    by_cases hval : is_valid_position st pos = true
    · rw [if_pos hval] at h
      cases hl : lookupAssoc st.data k with
      | none =>
        rw [hl] at h
        exact absurd (congrArg Prod.fst h) (by simp)
      | some s =>
        rw [hl] at h
        obtain ⟨hpos, hr, hc, hrest⟩ := ih h
        refine ⟨?_, hr, hc, ?_⟩
        · rw [hpos, posUnion_cons]
        · intro kp' hkp'
          rcases List.mem_cons.1 hkp' with rfl | hmem
          · exact hval
          · exact (is_valid_position_congr kp'.2 rfl rfl).trans
              (hrest kp' hmem)
    · rw [if_neg hval] at h
      exact absurd (congrArg Prod.fst h) (by simp)

theorem commitLoop_err_prefix {κ ρl γl δ : Type} [DecidableEq κ]
    [DecidableEq ρl] [DecidableEq γl] {st st' : OColl κ ρl γl δ}
    {batch : List (κ × (ρl × γl))} {e : String}
    (h : commitLoop st batch = (some e, st')) :
    ∃ n, st'.positions = posUnion st.positions (batch.take n) := by
  induction batch generalizing st with
  | nil =>
    rw [commitLoop] at h
    exact absurd (congrArg Prod.fst h) (by simp)
  | cons kp rest ih =>
    obtain ⟨k, pos⟩ := kp
    rw [commitLoop] at h
    by_cases hval : is_valid_position st pos = true
    · rw [if_pos hval] at h
      cases hl : lookupAssoc st.data k with
      | none =>
        rw [hl] at h
        obtain rfl := congrArg Prod.snd h
        exact ⟨1, rfl⟩
      | some s =>
        rw [hl] at h
        obtain ⟨n, hn⟩ := ih h
        exact ⟨n + 1, hn⟩
    · rw [if_neg hval] at h
      obtain rfl := congrArg Prod.snd h
      exact ⟨0, rfl⟩

theorem contains_fst_of_mem {κ β : Type} [DecidableEq κ]
    {l : List (κ × β)} {a : κ × β} (h : a ∈ l) :
    (l.map Prod.fst).contains a.1 = true := by
  simpa using List.mem_map_of_mem Prod.fst h

/-- Claim C6: a target-data apply on a sample with neither cached data
nor a data source returns the caller-supplied `noneval`, does not invoke
the supplied function, does not change the sample, and raises no error. -/
theorem c6_apply_missing_data_noneval {κ δ ρ : Type} (reader : String → δ)
    (func : Sample κ δ ⊕ δ → ρ) (noneval : ρ) (setdata : Bool) (i : κ)
    (mf : Option String) (mv : Option δ) :
    sampleApply reader func "data" noneval setdata
      { ID := i, datafile := none, metafile := mf, data := none, meta := mv }
    = (.ok noneval,
       { ID := i, datafile := none, metafile := mf, data := none,
         meta := mv }, false) := rfl

/-- Claim C7: `filter` returns a new collection whose members are exactly
the entries satisfying the predicate (here evaluated against the sample
objects), with the ID defaulting to `<original>.filtered`; the source is
not mutated (the embedding of `filter` is a pure function of the
receiver). -/
theorem c7_filter_members_and_id {κ δ : Type} (reader : String → δ)
    (c : Coll κ δ) (fil : Sample κ δ → Bool) :
    (coll_filter reader c (FilterCrit.samples (α := Unit) fil) none).ID
      = c.ID ++ ".filtered" ∧
    (coll_filter reader c (FilterCrit.samples (α := Unit) fil) none).data
      = c.data.filter (fun kv => fil kv.2) ∧
    ∀ kv, kv ∈ (coll_filter reader c
        (FilterCrit.samples (α := Unit) fil) none).data
      ↔ kv ∈ c.data ∧ fil kv.2 = true := by
  refine ⟨rfl, rfl, fun kv => ?_⟩
  simp [coll_filter, List.mem_filter]

/-- Claim C5: `transform` and `gate` return a new collection holding the
transformed/gated members; they leave the receiver's member dict
untouched but reassign the receiver's own ID, defaulting to
`<old>.transformed` / `<old>.gated` (and to the explicit ID when one is
given). -/
theorem c5_transform_gate_rename_self {δ : Type} (reader : String → δ)
    (tf g : Option δ → δ) (c : Coll String δ) (i : String) :
    (coll_transform reader tf none c).2.ID = c.ID ++ ".transformed" ∧
    (coll_transform reader tf none c).2.data = c.data ∧
    (coll_transform reader tf none c).1.data
      = c.data.map (fun kv => (kv.1, measTransform reader tf kv.2)) ∧
    (coll_transform reader tf (some i) c).2.ID = i ∧
    (coll_gate reader g none c).2.ID = c.ID ++ ".gated" ∧
    (coll_gate reader g none c).2.data = c.data ∧
    (coll_gate reader g none c).1.data
      = c.data.map (fun kv => (kv.1, measGate reader g kv.2)) ∧
    (coll_gate reader g (some i) c).2.ID = i :=
  ⟨rfl, rfl, rfl, rfl, rfl, rfl, rfl, rfl⟩

/-- Claim C9: `clear_sample_data` and `clear_sample_meta` ignore their
`ids` argument (the body passes `ids=None` to `_clear_sample_attr`), so
for every value of `ids` they clear the attribute on all samples of the
collection. -/
theorem c9_clear_ignores_ids {κ δ : Type} [DecidableEq κ] (c : Coll κ δ)
    (ids : Option (List κ)) :
    clear_sample_data c ids = clear_sample_data c none ∧
    (clear_sample_data c ids).data
      = c.data.map (fun kv => (kv.1, { kv.2 with data := none })) ∧
    clear_sample_meta c ids = clear_sample_meta c none ∧
    (clear_sample_meta c ids).data
      = c.data.map (fun kv => (kv.1, { kv.2 with meta := none })) := by
  refine ⟨rfl, ?_, rfl, ?_⟩ <;>
  · show (c.data.map _) = _
    apply List.map_congr_left
    intro a ha
    simp only [contains_fst_of_mem ha, if_true]

/-- Claim C10: `BaseOrderedCollection.from_path` hard-codes
`file_parser='name'` when delegating to `from_files`, so the
caller-supplied strategy is ignored (concretely, the `'number'` strategy
on `w.3.fcs` would give the integer ID `3`, but `from_path` produces the
string ID `w`); the flat collection's `from_path` forwards its parser. -/
theorem c10_ord_from_path_ignores_strategy :
    (∀ (δ : Type) (idFD : String → PyId) (files : List String)
        (fp : IdStrategy),
      @ordFromPathMembers δ idFD files fp
        = ordFromFilesMembers idFD files IdStrategy.name) ∧
    (∀ (δ : Type) (idFD : String → PyId) (files : List String)
        (p : IdStrategy),
      @flatFromPathMembers δ idFD files p
        = flatFromFilesMembers idFD files p) ∧
    @ordFromPathMembers Nat (fun _ => .str "") ["w.3.fcs"] .number
      = .ok [(.str "w", { ID := .str "w", datafile := some "w.3.fcs",
                          metafile := none, data := none, meta := none })] ∧
    @ordFromFilesMembers Nat (fun _ => .str "") ["w.3.fcs"] .number
      = .ok [(.int 3, { ID := .int 3, datafile := some "w.3.fcs",
                        metafile := none, data := none, meta := none })] ∧
    @ordFromPathMembers Nat (fun _ => .str "") ["w.3.fcs"] .number
      ≠ @ordFromFilesMembers Nat (fun _ => .str "") ["w.3.fcs"] .number :=
  ⟨fun _ _ _ _ => rfl, fun _ _ _ _ => rfl, by decide, by decide, by decide⟩

/-- Claim C3, counterexample: with `data` unset and a valid source, the
first `get_data` call — whatever keyword arguments it is given, including
a `persist` flag (modelled by the forwarded kwarg `true`) — leaves the
sample unchanged with `data` still unset, so the second call invokes the
backing reader again (one read), contradicting the claimed caching. -/
theorem c3_counterexample_no_persist_cache :
    (getDataS c3reader true c3sample).2.1 = c3sample ∧
    (getDataS c3reader true c3sample).2.1.data = none ∧
    (getDataS c3reader true ((getDataS c3reader true c3sample).2.1)).2.2
      = 1 :=
  ⟨rfl, rfl, rfl⟩

/-- Claim C3, amended: `get_data()` twice returns equal values (the
reader is deterministic) and never mutates the sample; no keyword
argument (`persist` included) makes the first call cache its result, so
whenever `data` is unset and a source is present the second call invokes
the backing reader again. -/
theorem c3_get_data_never_caches {κ δ κw : Type}
    (reader : String → κw → δ) (k : κw) (s : Sample κ δ) :
    (getDataS reader k s).2.1 = s ∧
    (getDataS reader k ((getDataS reader k s).2.1)).1
      = (getDataS reader k s).1 ∧
    (s.data = none → s.datafile.isSome = true →
      (getDataS reader k ((getDataS reader k s).2.1)).2.2 = 1) := by
  obtain ⟨i, df, mf, d, m⟩ := s
  cases d <;> cases df <;> simp [getDataS]

/-- Witness for the amended C3 theorem at the concrete sample `c3sample`,
discharging its hypotheses there. -/
theorem c3_get_data_never_caches_witness :
    c3sample.data = none ∧ c3sample.datafile.isSome = true ∧
    (getDataS c3reader true ((getDataS c3reader true c3sample).2.1)).2.2
      = 1 :=
  ⟨rfl, rfl, (c3_get_data_never_caches c3reader true c3sample).2.2 rfl rfl⟩

/-- Claim C2: on a dense 1×1 plate, `apply` with `outputs=['a','b']` and
a function returning a 2-tuple does not build any tables — the per-well
call `well.apply(func, applyto, noneval, nout, setdata)` passes five
positional arguments to the four-parameter `BaseSample.apply`, so the
call raises `TypeError` for the very first well inside `well_ids` and
`extracted` is never updated. -/
theorem c2_plate_apply_raises_type_error :
    plate_apply (fun _ => (0 : Nat)) c2getItem c2func ["a", "b"] "data"
      ([] : List Nat) none false c2plate
    = .error "TypeError: apply() takes at most 5 arguments (6 given)" :=
  rfl

/-- Claim C4: `OrderedCollection.apply` accepts `dropna` but does not
forward it to `_dict2DF` (bases.py line 666), so with `dropna=True` the
returned table still contains the all-empty row `B` and column `2`
(first conjunct), whereas the documented trimming — `_dict2DF` with
`dropna=True` — would return the 1×1 table (second conjunct). -/
theorem c4_apply_ignores_dropna :
    oc_apply (fun _ => (none : Option Nat)) (fun x => x.isNone)
      (fun _ => some 7) none "data" "DataFrame" none false true c4oc
      = .ok (.table [[some 7, none], [none, none]], c4oc) ∧
    dict2DF c4oc (fun x => x.isNone) [("A1", some 7)] none true
      = .ok [[some 7]] ∧
    ([[some 7, none], [none, none]] : List (List (Option Nat)))
      ≠ [[some 7]] :=
  ⟨by decide, by decide, by decide⟩

/-- Claim C1, counterexample: on the 2×2 collection `oc0` with an empty
position index, a batch whose first proposal is valid and whose second is
the out-of-grid cell `("Z", 9)` makes `set_positions` raise, yet the
stored index now contains the first proposal — the batch was partially
committed, so validation is not atomic as claimed. -/
theorem c1_counterexample_partial_commit :
    (set_positions oc0 (some oc0badBatch) trivParser none).1
      = some "Position is not supported for this collection" ∧
    oc0.positions = [] ∧
    (set_positions oc0 (some oc0badBatch) trivParser none).2.positions
      = [("x", ("A", 1))] ∧
    (set_positions oc0 (some oc0badBatch) trivParser none).2.positions
      ≠ oc0.positions :=
  ⟨rfl, rfl, rfl, by decide⟩

/-- Claim C1, amended: when `set_positions` fails the duplicate-position
check over the union of existing and proposed positions, the stored index
is left exactly unchanged; but when it fails on a proposal (position
outside the grid, or unknown sample key), exactly a prefix of the batch
in iteration order has already been committed, so the index can differ
from its prior value. -/
theorem c1_set_positions_failure {κ ρl γl δ : Type} [DecidableEq κ]
    [DecidableEq ρl] [DecidableEq γl] (st : OColl κ ρl γl δ)
    (positions? : Option (List (κ × (ρl × γl)))) (parser : κ → ρl × γl)
    (ids? : Option (List κ)) :
    (((posUnion st.positions
          (resolvePositions st positions? parser ids?)).map
            Prod.snd).dedup.length
        ≠ ((posUnion st.positions
            (resolvePositions st positions? parser ids?)).map
              Prod.snd).length →
      set_positions st positions? parser ids?
        = (some "A position can only be occupied by a single sample", st)) ∧
    (∀ (e : String) (st' : OColl κ ρl γl δ),
      set_positions st positions? parser ids? = (some e, st') →
      ∃ n, st'.positions = posUnion st.positions
        ((resolvePositions st positions? parser ids?).take n)) := by
  constructor
  · intro hne
    simp only [set_positions]
    rw [if_neg hne]
  · intro e st' h
    simp only [set_positions] at h
    split at h
    · exact commitLoop_err_prefix h
    · obtain rfl := congrArg Prod.snd h
      exact ⟨0, rfl⟩

/-- Witness for the amended C1 theorem: a concrete colliding batch leaves
`oc0` unchanged, and the concrete out-of-grid batch commits a prefix. -/
theorem c1_set_positions_failure_witness :
    set_positions oc0 (some oc0collBatch) trivParser none
      = (some "A position can only be occupied by a single sample", oc0) ∧
    ∃ n, (set_positions oc0 (some oc0badBatch) trivParser none).2.positions
      = posUnion oc0.positions (oc0badBatch.take n) :=
  ⟨(c1_set_positions_failure oc0 (some oc0collBatch) trivParser none).1
      (by decide),
   (c1_set_positions_failure oc0 (some oc0badBatch) trivParser none).2
      "Position is not supported for this collection"
      ((set_positions oc0 (some oc0badBatch) trivParser none).2) rfl⟩

/-- Claim C8: if the stored position index has no duplicate keys and only
in-grid cells, then after any `set_positions` call that returns without
raising, the index still has no duplicate keys, maps them to pairwise
distinct cells (so it is a bijection between the assigned IDs and the
occupied cells), and every assigned cell has its row label in
`row_labels` and its column label in `col_labels`. -/
theorem c8_set_positions_invariant {κ ρl γl δ : Type} [DecidableEq κ]
    [DecidableEq ρl] [DecidableEq γl] (st : OColl κ ρl γl δ)
    (positions? : Option (List (κ × (ρl × γl)))) (parser : κ → ρl × γl)
    (ids? : Option (List κ)) (st' : OColl κ ρl γl δ)
    (hkeys : (st.positions.map Prod.fst).Nodup)
    (hvalid : ∀ p ∈ st.positions.map Prod.snd,
      is_valid_position st p = true)
    (h : set_positions st positions? parser ids? = (none, st')) :
    (st'.positions.map Prod.fst).Nodup ∧
    (st'.positions.map Prod.snd).Nodup ∧
    ∀ p ∈ st'.positions.map Prod.snd, is_valid_position st' p = true := by
  simp only [set_positions] at h
  split at h
  · rename_i hck
    obtain ⟨hpos, hr, hc, hbatch⟩ := commitLoop_ok_spec h
    have hvals : (st'.positions.map Prod.snd).Nodup := by
      rw [hpos]
      have hsub := List.dedup_sublist
        ((posUnion st.positions
          (resolvePositions st positions? parser ids?)).map Prod.snd)
      exact List.dedup_eq_self.mp (hsub.eq_of_length hck)
    refine ⟨?_, hvals, ?_⟩
    · rw [hpos]
      exact nodup_fst_posUnion hkeys
    · intro p hp
      rw [hpos] at hp
      have htr : ∀ q : ρl × γl,
          is_valid_position st' q = is_valid_position st q :=
        fun q => is_valid_position_congr q hr hc
      rcases mem_map_snd_posUnion hp with h' | h'
      · rw [htr p]
        exact hvalid p h'
      · obtain ⟨kp, hkp, hpe⟩ := List.mem_map.1 h'
        rw [htr p, ← hpe]
        exact hbatch kp hkp
  · exact absurd (congrArg Prod.fst h) (by simp)

/-- Witness for the C8 theorem at the concrete collection `oc0` with a
fully valid batch, discharging its hypotheses there. -/
theorem c8_set_positions_invariant_witness :
    ((oc0.positions.map Prod.fst).Nodup ∧
     ∀ p ∈ oc0.positions.map Prod.snd, is_valid_position oc0 p = true) ∧
    (((set_positions oc0 (some oc0goodBatch) trivParser
        none).2.positions.map Prod.fst).Nodup ∧
     (((set_positions oc0 (some oc0goodBatch) trivParser
        none).2.positions.map Prod.snd)).Nodup ∧
     ∀ p ∈ (set_positions oc0 (some oc0goodBatch) trivParser
        none).2.positions.map Prod.snd,
       is_valid_position
         (set_positions oc0 (some oc0goodBatch) trivParser none).2 p
         = true) :=
  ⟨⟨by decide, by decide⟩,
   c8_set_positions_invariant oc0 (some oc0goodBatch) trivParser none
     ((set_positions oc0 (some oc0goodBatch) trivParser none).2)
     (by decide) (by decide) rfl⟩

end FCT
